import Mathlib

/-!
# hydroxide: credential vault, gateway session resolution and event relay

A shallow embedding of `cmd/hydroxide/hydroxide.go`.

* Go functions returning `(value, error)` become functions into `GoResult`,
  which also records a run-time panic (slice bounds out of range).
* The libraries the program calls (base64, NaCl secretbox, encoding/json,
  bcrypt) are not part of the repository; they are the fields of `Lib`.
* Everything the environment decides during one request (random bytes, the
  upstream service, the file system) is a field of `Env`.
* The persistent store `auth.json` and the in-memory `sessions` map form the
  `World` that the request handler transforms.
-/

set_option autoImplicit false

namespace Hydroxide

/-! ## Bytes, keys, nonces -/

/-- One Go `byte`. -/
abbrev Byte := Fin 256

/-- A Go `[]byte`. -/
abbrev Bytes := List Byte

/-- The Go type `[32]byte` of a secret key. -/
abbrev SecretKey := { k : Bytes // k.length = 32 }

/-- The Go type `[24]byte` of a secretbox nonce. -/
abbrev Nonce := { n : Bytes // n.length = 24 }

/-- Result of a Go call: a returned value, a returned non-nil `error`, or a
run-time panic that unwinds the caller. -/
inductive GoResult (α : Type) where
  | ok (a : α)
  | err (e : String)
  | panic (msg : String)
  deriving Repr, DecidableEq

/-! ## Library interface -/

/-- Modelled from the spec: `protonmail.Auth`, declared in a package that only
the import line of the source names. The spec lists the upstream access and
refresh tokens and the last-seen event cursor; the source reads `EventID` and
`PasswordMode`. -/
structure Auth where
  AccessToken : String
  RefreshToken : String
  EventID : String
  PasswordMode : Nat
  deriving Repr, DecidableEq

/-- The record that is encrypted into the vault (`type cachedAuth struct`). -/
structure cachedAuth where
  Auth : Auth
  LoginPassword : String
  MailboxPassword : String
  deriving Repr, DecidableEq

/-- An unlocked `openpgp.EntityList`, kept abstract as a list of key names. -/
abbrev EntityList := List String

/-- The pure library functions the program calls. -/
structure Lib where
  /-- Stands for `base64.StdEncoding.EncodeToString`. -/
  encodeToString : Bytes → String
  /-- Stands for `base64.StdEncoding.DecodeString`. -/
  decodeString : String → Except String Bytes
  /-- Stands for `secretbox.Seal(nil, msg, nonce, key)`: tag and ciphertext. -/
  secretboxSeal : Bytes → Nonce → SecretKey → Bytes
  /-- Stands for `secretbox.Open(nil, box, nonce, key)`; `none` is `ok == false`. -/
  secretboxOpen : Bytes → Nonce → SecretKey → Option Bytes
  /-- Stands for `json.Marshal` on a `*cachedAuth`. -/
  jsonMarshal : cachedAuth → Except String Bytes
  /-- Stands for `json.Unmarshal` into a `cachedAuth`. -/
  jsonUnmarshal : Bytes → Except String cachedAuth
  /-- Stands for `bcrypt.GenerateFromPassword`; the second argument is the random salt draw. -/
  generateFromPassword : Bytes → Bytes → Except String Bytes
  /-- Stands for `bcrypt.CompareHashAndPassword`; `Except.ok ()` is a nil error. -/
  compareHashAndPassword : Bytes → Bytes → Except String Unit

/-! ## encrypt / decrypt (source lines 57-80) -/

/-- Source `encrypt`: draw a nonce, seal the message appending to the nonce,
base64-encode. `rand` is the result of `io.ReadFull(rand.Reader, nonce[:])`. -/
def encrypt (lib : Lib) (rand : Except String Nonce) (msg : Bytes) (secretKey : SecretKey) :
    Except String String :=
  match rand with
  | .error e => .error e
  | .ok nonce =>
    let encrypted := nonce.val ++ lib.secretboxSeal msg nonce secretKey
    .ok (lib.encodeToString encrypted)

/-- Source `decrypt`. After a successful base64 decoding the source evaluates
`encrypted[:24]` and `encrypted[24:]` with no length check; the second
expression panics whenever `len(encrypted) < 24` (the first already does when
the capacity is below 24), and neither panics otherwise. -/
def decrypt (lib : Lib) (encryptedString : String) (secretKey : SecretKey) : GoResult Bytes :=
  match lib.decodeString encryptedString with
  | .error e => .err e
  | .ok encrypted =>
    if h : 24 ≤ encrypted.length then
      let nonce : Nonce := ⟨encrypted.take 24, by simp [List.length_take, h]⟩
      match lib.secretboxOpen (encrypted.drop 24) nonce secretKey with
      | none => .err "decryption error"
      | some decrypted => .ok decrypted
    else
      .panic "slice bounds out of range"

/-! ## The persistent store (source lines 24-55) -/

/-- A Go `map[string]V`, kept as an association list with one pair per key. -/
abbrev GoMap (β : Type) := List (String × β)

/-- The Go expression `v, ok := m[k]`; `none` is `ok == false`. -/
def GoMap.get {β : Type} (m : GoMap β) (k : String) : Option β :=
  match m with
  | [] => none
  | (k1, v) :: rest => if k1 = k then some v else GoMap.get rest k

/-- The Go statement `m[k] = v`. -/
def GoMap.set {β : Type} (m : GoMap β) (k : String) (v : β) : GoMap β :=
  (k, v) :: m.filter (fun p => decide (p.1 ≠ k))

/-- What `auth.json` looks like to `os.Open` and to the JSON decoder. -/
inductive FileState where
  /-- No such file: `os.IsNotExist(err)` holds for the error of `os.Open`. -/
  | absent
  /-- The file exists and `os.Open` fails with another error. -/
  | unopenable (e : String)
  /-- The file holds a JSON object of strings that decodes into `auths`. -/
  | object (auths : GoMap String)
  /-- The decoder fails with `e`, having filled in `decoded` so far. -/
  | garbled (decoded : GoMap String) (e : String)
  deriving Repr, DecidableEq

/-- Source `readCachedAuths`: the pair `(auths, err)`; `none` in the first
component is the nil map, `none` in the second the nil error. -/
def readCachedAuths (f : FileState) : Option (GoMap String) × Option String :=
  match f with
  | .absent => (none, none)
  | .unopenable e => (none, some e)
  | .object auths => (some auths, none)
  | .garbled decoded e => (some decoded, some e)

/-- How the file system answers one call of `saveAuths`. -/
inductive SaveOutcome where
  /-- The file is created and the encoder writes the whole object. -/
  | written
  /-- Here `os.Create` fails; the file is left as it was. -/
  | createFails (e : String)
  /-- The file is truncated by `os.Create` and the write then fails. -/
  | writeFails (e : String)
  deriving Repr, DecidableEq

/-- Source `saveAuths`: the returned error and the file afterwards. -/
def saveAuths (save : SaveOutcome) (auths : GoMap String) (f : FileState) :
    Option String × FileState :=
  match save with
  | .written => (none, .object auths)
  | .createFails e => (some e, f)
  | .writeFails e => (some e, .garbled [] e)

/-! ## Environment of one request -/

/-- Everything outside the process that one request may consult. -/
structure Env where
  /-- Result of `io.ReadFull(rand.Reader, nonce[:])` inside `encrypt`. -/
  rand : Except String Nonce
  /-- The upstream call `c.AuthRefresh`. -/
  authRefresh : Auth → Except String Auth
  /-- The upstream call `c.Unlock`, given the auth and the mailbox password. -/
  unlock : Auth → String → Except String EntityList
  /-- The answer of the file system to `saveAuths`. -/
  save : SaveOutcome
  /-- The salt drawn by `bcrypt.GenerateFromPassword`. -/
  salt : Bytes
  /-- The address at which `carddav.NewHandler` allocates the handler. -/
  handlerAddr : Nat

/-- Observable actions of the request handler, in program order. -/
inductive Effect where
  | sessionLookup (username : String)
  | verify (username : String)
  | vaultRead
  | vaultWrite
  | upstreamRefresh
  | upstreamUnlock
  | hash
  | spawnRelay (last : String)
  | newHandler (addr : Nat)
  | sessionInsert (username : String)
  | log (format : String) (args : List String)
  deriving Repr, DecidableEq

/-- Source `encryptAndSaveAuth`: the returned error, the file afterwards and
the store accesses performed. -/
def encryptAndSaveAuth (lib : Lib) (env : Env) (f : FileState) (auth : cachedAuth)
    (username : String) (secretKey : SecretKey) : Option String × FileState × List Effect :=
  match lib.jsonMarshal auth with
  | .error e => (some e, f, [])
  | .ok cleartext =>
    match encrypt lib env.rand cleartext secretKey with
    | .error e => (some e, f, [])
    | .ok encrypted =>
      match readCachedAuths f with
      | (_, some e) => (some e, f, [.vaultRead])
      | (auths, none) =>
        let auths := (auths.getD []).set username encrypted
        let (err, f1) := saveAuths env.save auths f
        (err, f1, [.vaultRead, .vaultWrite])

/-- Source `authenticate`: the result of `c.Unlock` (or the refresh error),
the record as the function leaves it behind its pointer argument, and the
upstream calls made. -/
def authenticate (env : Env) (ca : cachedAuth) :
    Except String EntityList × cachedAuth × List Effect :=
  match env.authRefresh ca.Auth with
  | .error e => (.error e, ca, [.upstreamRefresh])
  | .ok auth =>
    let ca1 : cachedAuth := { ca with Auth := auth }
    (env.unlock auth ca1.MailboxPassword, ca1, [.upstreamRefresh, .upstreamUnlock])

/-! ## receiveEvents (source lines 126-144) -/

/-- Modelled from the spec: `protonmail.Event`, declared outside the source
file; the loop reads only its `ID`, the rest is carried along untouched. -/
structure Event where
  ID : String
  payload : String
  deriving Repr, DecidableEq

/-- Local state of the polling loop: the cursor `last` and what has been sent
on the channel `ch` so far, oldest first. -/
structure RelayState where
  last : String
  sent : List Event
  deriving Repr, DecidableEq

/-- One iteration of the `for range t.C` loop; `getEvent` is the answer of
`c.GetEvent` at this tick as a function of the cursor passed to it. -/
def relayTick (s : RelayState) (getEvent : String → Except String Event) : RelayState :=
  match getEvent s.last with
  | .error _ => s
  | .ok event =>
    if event.ID = s.last then s
    else { last := event.ID, sent := s.sent ++ [event] }

/-- Source `receiveEvents` run for the ticks in `ticks`. -/
def receiveEvents (last : String) (ticks : List (String → Except String Event)) : RelayState :=
  ticks.foldl relayTick { last := last, sent := [] }

/-! ## The gateway handler (source lines 237-334) -/

/-- What the closure writes to the `http.ResponseWriter` itself. -/
structure Response where
  status : Nat
  wwwAuthenticate : String
  body : String
  deriving Repr, DecidableEq

/-- The value returned by `carddav.NewHandler`: its address identifies the
instance. -/
structure Handler where
  addr : Nat
  privateKeys : EntityList
  deriving Repr, DecidableEq

/-- Source `type session struct`. -/
structure session where
  h : Handler
  hashedSecretKey : Bytes
  privateKeys : EntityList
  deriving Repr, DecidableEq

/-- The state the handler closes over (`sessions`) and the store on disk. -/
structure World where
  sessions : GoMap session
  file : FileState
  deriving Repr, DecidableEq

/-- The part of `*http.Request` the closure reads: `req.BasicAuth()`. -/
structure Request where
  basicAuth : Option (String × String)
  deriving Repr, DecidableEq

/-- How one invocation of the closure ends. -/
inductive Served where
  /-- The closure wrote the response and returned. -/
  | responded (r : Response)
  /-- The closure called `h.ServeHTTP(resp, req)`. -/
  | dispatched (h : Handler)
  /-- A panic left the closure; net/http drops the connection. -/
  | aborted (msg : String)
  deriving Repr, DecidableEq

/-- Lines 251-258: decode the Basic-Auth password into a `[32]byte`. -/
def secretKeyOfPassword (lib : Lib) (password : String) : Option SecretKey :=
  match lib.decodeString password with
  | .error _ => none
  | .ok passwordBytes =>
    if h : passwordBytes.length = 32 then some ⟨passwordBytes, h⟩ else none

/-- A status written with `resp.WriteHeader` followed by `io.WriteString`. -/
def reply (status : Nat) (body : String) : Served :=
  .responded { status := status, wwwAuthenticate := "Basic", body := body }

/-- Lines 293-330: the cold start once the stored entry has been decrypted. -/
def establish (lib : Lib) (env : Env) (w : World) (username : String) (secretKey : SecretKey)
    (decrypted : Bytes) : Served × World × List Effect :=
  match lib.jsonUnmarshal decrypted with
  | .error e =>
    (reply 500 "", w, [.log "Cannot unmarshal cached auth for %q: %v" [username, e]])
  | .ok ca =>
    match authenticate env ca with
    | (.error e, _, fx) =>
      (reply 500 "", w, fx ++ [.log "Cannot authenticate %q: %v" [username, e]])
    | (.ok privateKeys, ca1, fx) =>
      match encryptAndSaveAuth lib env w.file ca1 username secretKey with
      | (some e, f1, fs) =>
        (reply 500 "", { w with file := f1 },
          fx ++ fs ++ [.log "Cannot save auth for %q: %v" [username, e]])
      | (none, f1, fs) =>
        match lib.generateFromPassword secretKey.val env.salt with
        | .error e =>
          (reply 500 "", { w with file := f1 },
            fx ++ fs ++ [.hash, .log "Cannot hash password for %q: %v" [username, e]])
        | .ok hashed =>
          let h : Handler := { addr := env.handlerAddr, privateKeys := privateKeys }
          (.dispatched h,
            { sessions := w.sessions.set username
                { h := h, hashedSecretKey := hashed, privateKeys := privateKeys },
              file := f1 },
            fx ++ fs ++ [.hash, .spawnRelay ca1.Auth.EventID, .newHandler env.handlerAddr,
              .sessionInsert username])

/-- The `http.HandlerFunc` closure of `main`: the outcome, the world
afterwards and the actions taken. -/
def serveHTTP (lib : Lib) (env : Env) (w : World) (req : Request) :
    Served × World × List Effect :=
  match req.basicAuth with
  | none => (reply 401 "Credentials are required", w, [])
  | some (username, password) =>
    match secretKeyOfPassword lib password with
    | none => (reply 401 "Invalid password format", w, [])
    | some secretKey =>
      match w.sessions.get username with
      | some s =>
        match lib.compareHashAndPassword s.hashedSecretKey secretKey.val with
        | .error _ =>
          (reply 401 "Invalid username or password", w,
            [.sessionLookup username, .verify username])
        | .ok _ => (.dispatched s.h, w, [.sessionLookup username, .verify username])
      | none =>
        match readCachedAuths w.file with
        | (_, some _) =>
          (reply 500 "", w,
            [.sessionLookup username, .vaultRead, .log "Cannot open cached auths" []])
        | (auths, none) =>
          match (auths.getD []).get username with
          | none =>
            (reply 401 "Invalid username or password", w, [.sessionLookup username, .vaultRead])
          | some encrypted =>
            match decrypt lib encrypted secretKey with
            | .panic msg => (.aborted msg, w, [.sessionLookup username, .vaultRead])
            | .err _ =>
              (reply 401 "Invalid username or password", w,
                [.sessionLookup username, .vaultRead])
            | .ok decrypted =>
              let (out, w1, fx) := establish lib env w username secretKey decrypted
              (out, w1, [.sessionLookup username, .vaultRead] ++ fx)

/-- The gateway serving the requests of `steps` one after another. -/
def serveAll (lib : Lib) (w : World) (steps : List (Env × Request)) : World :=
  steps.foldl (fun acc step => (serveHTTP lib step.1 acc step.2).2.1) w

/-! ## An executable instance of the library interface

`stdEncodeToString` and `stdDecodeString` follow RFC 4648 with padding, as
`base64.StdEncoding` does. The secretbox, JSON and bcrypt stand-ins below are
small functions with the shape of the real ones (a 16-byte tag in front of the
ciphertext, a salted verifier); they serve to run the program on concrete
inputs and claim nothing about NaCl or bcrypt. -/

/-- The alphabet of `base64.StdEncoding`. -/
def stdAlphabet : List Char :=
  "ABCDEFGHIJKLMNOPQRSTUVWXYZabcdefghijklmnopqrstuvwxyz0123456789+/".toList

/-- The character of a 6-bit value. -/
def encodeSextet (v : Nat) : Char := stdAlphabet.getD v 'A'

/-- The 6-bit value of a character of the alphabet. -/
def decodeSextet (c : Char) : Option Nat :=
  let i := stdAlphabet.indexOf c
  if i < 64 then some i else none

/-- A natural number truncated to a byte. -/
def byteOfNat (n : Nat) : Byte := ⟨n % 256, Nat.mod_lt _ (by decide)⟩

/-- Base64 encoding, three bytes to four characters, padded with `=`. -/
def encodeChars : Bytes → List Char
  | [] => []
  | [a] => [encodeSextet (a.val / 4), encodeSextet (a.val % 4 * 16), '=', '=']
  | [a, b] =>
    [encodeSextet (a.val / 4), encodeSextet (a.val % 4 * 16 + b.val / 16),
     encodeSextet (b.val % 16 * 4), '=']
  | a :: b :: c :: rest =>
    encodeSextet (a.val / 4) :: encodeSextet (a.val % 4 * 16 + b.val / 16) ::
      encodeSextet (b.val % 16 * 4 + c.val / 64) :: encodeSextet (c.val % 64) ::
      encodeChars rest

/-- Base64 decoding of whole quanta; padding is accepted in the last one only. -/
def decodeChars : List Char → Except String Bytes
  | [] => .ok []
  | [_] => .error "illegal base64 data"
  | [_, _] => .error "illegal base64 data"
  | [_, _, _] => .error "illegal base64 data"
  | c0 :: c1 :: c2 :: c3 :: rest =>
    match decodeSextet c0, decodeSextet c1 with
    | some v0, some v1 =>
      if c2 = '=' then
        if c3 = '=' ∧ rest = [] then .ok [byteOfNat (v0 * 4 + v1 / 16)]
        else .error "illegal base64 data"
      else
        match decodeSextet c2 with
        | none => .error "illegal base64 data"
        | some v2 =>
          if c3 = '=' then
            if rest = [] then
              .ok [byteOfNat (v0 * 4 + v1 / 16), byteOfNat (v1 % 16 * 16 + v2 / 4)]
            else .error "illegal base64 data"
          else
            match decodeSextet c3 with
            | none => .error "illegal base64 data"
            | some v3 =>
              match decodeChars rest with
              | .error e => .error e
              | .ok bs =>
                .ok (byteOfNat (v0 * 4 + v1 / 16) :: byteOfNat (v1 % 16 * 16 + v2 / 4) ::
                  byteOfNat (v2 % 4 * 64 + v3) :: bs)
    | _, _ => .error "illegal base64 data"

/-- Executable `base64.StdEncoding.EncodeToString`. -/
def stdEncodeToString (b : Bytes) : String := String.mk (encodeChars b)

/-- Executable `base64.StdEncoding.DecodeString`; CR and LF are skipped. -/
def stdDecodeString (s : String) : Except String Bytes :=
  decodeChars (s.toList.filter (fun c => c != '\r' && c != '\n'))

/-- Stand-in keystream byte of a key and nonce. -/
def demoPad (nonce : Nonce) (key : SecretKey) : Byte :=
  nonce.val.headD 0 + key.val.headD 0

/-- Stand-in 16-byte tag of a plaintext. -/
def demoTag (msg : Bytes) (nonce : Nonce) (key : SecretKey) : Bytes :=
  List.replicate 16 (demoPad nonce key + msg.sum)

/-- Stand-in for `secretbox.Seal`: tag, then the shifted message. -/
def demoSeal (msg : Bytes) (nonce : Nonce) (key : SecretKey) : Bytes :=
  demoTag msg nonce key ++ msg.map (fun b => b + demoPad nonce key)

/-- Stand-in for `secretbox.Open`: rejects a short box and a wrong tag. -/
def demoOpen (box : Bytes) (nonce : Nonce) (key : SecretKey) : Option Bytes :=
  if box.length < 16 then none
  else
    let msg := (box.drop 16).map (fun b => b - demoPad nonce key)
    if box.take 16 = demoTag msg nonce key then some msg else none

/-- The bytes of an ASCII string. -/
def bytesOfString (s : String) : Bytes := s.toList.map (fun c => byteOfNat c.toNat)

/-- The ASCII string of some bytes. -/
def stringOfBytes (b : Bytes) : String := String.mk (b.map (fun x => Char.ofNat x.val))

/-- The lines of a byte string, each ended by byte 10. -/
def splitLines : Bytes → List Bytes
  | [] => []
  | b :: rest =>
    if b = 10 then [] :: splitLines rest
    else
      match splitLines rest with
      | [] => [[b]]
      | l :: ls => (b :: l) :: ls

/-- Stand-in for `json.Marshal`: one field per line. -/
def demoMarshal (ca : cachedAuth) : Except String Bytes :=
  .ok (bytesOfString ca.Auth.AccessToken ++ [10] ++ bytesOfString ca.Auth.RefreshToken ++ [10]
    ++ bytesOfString ca.Auth.EventID ++ [10] ++ [byteOfNat ca.Auth.PasswordMode, 10]
    ++ bytesOfString ca.LoginPassword ++ [10] ++ bytesOfString ca.MailboxPassword ++ [10])

/-- Stand-in for `json.Unmarshal`: six lines or an error. -/
def demoUnmarshal (b : Bytes) : Except String cachedAuth :=
  match splitLines b with
  | [access, refresh, event, [mode], login, mailbox] =>
    .ok { Auth := { AccessToken := stringOfBytes access, RefreshToken := stringOfBytes refresh,
                    EventID := stringOfBytes event, PasswordMode := mode.val },
          LoginPassword := stringOfBytes login, MailboxPassword := stringOfBytes mailbox }
  | _ => .error "unexpected end of JSON input"

/-- Stand-in for `bcrypt.GenerateFromPassword`: a 16-byte salt, then the
password shifted by the first salt byte. -/
def demoGenerate (password salt : Bytes) : Except String Bytes :=
  if salt.length = 16 then .ok (salt ++ password.map (fun b => b + salt.headD 0))
  else .error "short salt"

/-- Stand-in for `bcrypt.CompareHashAndPassword`. -/
def demoCompare (hashed password : Bytes) : Except String Unit :=
  if hashed.drop 16 = password.map (fun b => b + hashed.headD 0) then .ok ()
  else .error "hashedPassword is not the hash of the given password"

/-- The executable library instance. -/
def demoLib : Lib where
  encodeToString := stdEncodeToString
  decodeString := stdDecodeString
  secretboxSeal := demoSeal
  secretboxOpen := demoOpen
  jsonMarshal := demoMarshal
  jsonUnmarshal := demoUnmarshal
  generateFromPassword := demoGenerate
  compareHashAndPassword := demoCompare

/-- A secret key: thirty-two bytes 7. -/
def demoKey : SecretKey := ⟨List.replicate 32 7, by decide⟩

/-- Another secret key: thirty-two bytes 9. -/
def otherKey : SecretKey := ⟨List.replicate 32 9, by decide⟩

/-- A nonce: twenty-four bytes 3. -/
def demoNonce : Nonce := ⟨List.replicate 24 3, by decide⟩

/-- A credential record for `alice`. -/
def demoAuth : cachedAuth :=
  { Auth := { AccessToken := "at0", RefreshToken := "rt0", EventID := "e0", PasswordMode := 1 },
    LoginPassword := "pw", MailboxPassword := "pw" }

/-- The serialization of `demoAuth`. -/
def demoCleartext : Bytes :=
  match demoMarshal demoAuth with
  | .ok b => b
  | .error _ => []

/-- The vault entry of `demoAuth` under `demoKey` and `demoNonce`. -/
def demoEntry : String :=
  stdEncodeToString (demoNonce.val ++ demoSeal demoCleartext demoNonce demoKey)

/-- The Basic-Auth password that decodes to `demoKey`. -/
def demoPassword : String := stdEncodeToString demoKey.val

/-- The Basic-Auth password that decodes to `otherKey`. -/
def otherPassword : String := stdEncodeToString otherKey.val

/-- An upstream that rotates the refresh token and unlocks one key. -/
def demoEnv : Env where
  rand := .ok demoNonce
  authRefresh := fun a => .ok { a with AccessToken := "at1", RefreshToken := "rt1" }
  unlock := fun _ _ => .ok ["alice-key"]
  save := .written
  salt := List.replicate 16 5
  handlerAddr := 1

/-- A world with `alice` enrolled and no session yet. -/
def demoWorld : World := { sessions := [], file := .object [("alice", demoEntry)] }

/-- The request of `alice` with the right bridge password. -/
def demoRequest : Request := { basicAuth := some ("alice", demoPassword) }

/-- An upstream whose token refresh fails. -/
def refreshFailsEnv : Env :=
  { demoEnv with authRefresh := fun _ => .error "invalid refresh token" }

/-- An upstream that rotates the refresh token and then fails to unlock. -/
def unlockFailsEnv : Env :=
  { demoEnv with unlock := fun _ _ => .error "wrong mailbox password" }

/-- A poll that answers with the event `e0` whatever the cursor. -/
def pollE0 : String → Except String Event :=
  fun _ => .ok { ID := "e0", payload := "nothing new" }

/-- A poll that answers with the event `e1` whatever the cursor. -/
def pollE1 : String → Except String Event :=
  fun _ => .ok { ID := "e1", payload := "contact added" }

/-- A poll that fails. -/
def pollDown : String → Except String Event :=
  fun _ => .error "connection refused"

/-! ## Lemmas on maps -/

theorem GoMap.get_set_self {β : Type} (m : GoMap β) (k : String) (v : β) :
    (m.set k v).get k = some v := by
  simp [GoMap.set, GoMap.get]

theorem GoMap.get_filter_ne {β : Type} (m : GoMap β) (k u : String) (hne : u ≠ k) :
    GoMap.get (m.filter (fun p => decide (p.1 ≠ k))) u = GoMap.get m u := by
  induction m with
  | nil => rfl
  | cons p rest ih =>
    obtain ⟨k1, v⟩ := p
    by_cases h1 : k1 = k
    · have hk1u : ¬ k1 = u := fun h => hne (h.symm.trans h1)
      rw [List.filter_cons_of_neg (by simp [h1])]
      rw [ih]
      simp [GoMap.get, hk1u]
    · rw [List.filter_cons_of_pos (by simp [h1])]
      simp only [GoMap.get]
      rw [ih]

theorem GoMap.get_set_other {β : Type} (m : GoMap β) (k u : String) (v : β) (hne : u ≠ k) :
    (m.set k v).get u = m.get u := by
  have hku : ¬ k = u := fun h => hne h.symm
  simp only [GoMap.set, GoMap.get, hku, if_false]
  exact GoMap.get_filter_ne m k u hne

/-! ## encrypt and decrypt -/

/-- An entry that is the base64 text of a nonce followed by a box is split by
`decrypt` into exactly that nonce and that box, which it hands to
`secretbox.Open`. -/
theorem decrypt_encoded (lib : Lib) (nonce : Nonce) (box : Bytes) (key : SecretKey)
    (hB64 : lib.decodeString (lib.encodeToString (nonce.val ++ box)) = .ok (nonce.val ++ box)) :
    decrypt lib (lib.encodeToString (nonce.val ++ box)) key
      = match lib.secretboxOpen box nonce key with
        | none => .err "decryption error"
        | some decrypted => .ok decrypted := by
  have hlen : 24 ≤ (nonce.val ++ box).length := by
    simp [nonce.property]
  have htake : (nonce.val ++ box).take 24 = nonce.val := by
    have := nonce.property
    simp [List.take_append_eq_append_take, this]
  have hdrop : (nonce.val ++ box).drop 24 = box := by
    have := nonce.property
    simp [List.drop_append_eq_append_drop, this]
  have hn : (⟨(nonce.val ++ box).take 24, by simp [List.length_take, hlen]⟩ : Nonce) = nonce :=
    Subtype.ext htake
  unfold decrypt
  rw [hB64]
  simp only [hlen, dite_true]
  rw [hn, hdrop]

/-- An entry that decodes to fewer than 24 bytes makes `decrypt` panic. -/
theorem decrypt_panics_of_short (lib : Lib) (entry : String) (key : SecretKey) (b : Bytes)
    (hdec : lib.decodeString entry = .ok b) (hlen : b.length < 24) :
    decrypt lib entry key = .panic "slice bounds out of range" := by
  unfold decrypt
  rw [hdec]
  simp only [Nat.not_le.mpr hlen, dite_false]

/-- C1: for every payload, key and drawn nonce, `encrypt` returns an entry and
`decrypt` of that entry under the same key returns exactly the payload,
given that `secretbox.Open` inverts `secretbox.Seal` on this message and that
base64 decoding inverts base64 encoding on the sealed bytes. -/
theorem decrypt_encrypt_roundtrip (lib : Lib) (payload : Bytes) (key : SecretKey) (nonce : Nonce)
    (hOpen : lib.secretboxOpen (lib.secretboxSeal payload nonce key) nonce key = some payload)
    (hB64 : lib.decodeString
        (lib.encodeToString (nonce.val ++ lib.secretboxSeal payload nonce key))
        = .ok (nonce.val ++ lib.secretboxSeal payload nonce key)) :
    ∃ entry, encrypt lib (.ok nonce) payload key = .ok entry ∧
      decrypt lib entry key = .ok payload := by
  refine ⟨lib.encodeToString (nonce.val ++ lib.secretboxSeal payload nonce key), ?_, ?_⟩
  · simp only [encrypt]
  · rw [decrypt_encoded lib nonce (lib.secretboxSeal payload nonce key) key hB64]
    simp only [hOpen]

/-- C1 at a concrete input: the demo cleartext under `demoKey` and `demoNonce`. -/
theorem decrypt_encrypt_roundtrip_witness :
    ∃ entry, encrypt demoLib (.ok demoNonce) demoCleartext demoKey = .ok entry ∧
      decrypt demoLib entry demoKey = .ok demoCleartext :=
  decrypt_encrypt_roundtrip demoLib demoCleartext demoKey demoNonce (by rfl) (by rfl)

/-- An entry that decodes to at least 24 bytes never makes `decrypt` panic:
the outcome is the plaintext or an error. -/
theorem decrypt_no_panic_of_long (lib : Lib) (entry : String) (key : SecretKey) (b : Bytes)
    (hdec : lib.decodeString entry = .ok b) (hlen : 24 ≤ b.length) :
    (∃ p, decrypt lib entry key = .ok p) ∨ (∃ e, decrypt lib entry key = .err e) := by
  unfold decrypt
  rw [hdec]
  simp only [hlen, dite_true]
  split
  · exact Or.inr ⟨_, rfl⟩
  · exact Or.inl ⟨_, rfl⟩

/-- Malformed base64 makes `decrypt` return an error. -/
theorem decrypt_err_of_bad_base64 (lib : Lib) (entry : String) (key : SecretKey) (e : String)
    (hdec : lib.decodeString entry = .error e) : decrypt lib entry key = .err e := by
  unfold decrypt
  rw [hdec]

/-- C2 at the failing input: the empty entry is valid base64 for zero bytes,
`decrypt` then slices `encrypted[:24]` and panics instead of returning a
DecryptionError, and the gateway request of a user whose stored entry is empty
is aborted instead of being answered with 401. -/
theorem decrypt_empty_entry_panics (key : SecretKey) (env : Env) :
    decrypt demoLib "" key = .panic "slice bounds out of range" ∧
    (serveHTTP demoLib env { sessions := [], file := .object [("alice", "")] }
        { basicAuth := some ("alice", demoPassword) }).1
      = .aborted "slice bounds out of range" := by
  constructor
  · rfl
  · rfl

/-! ## The gateway: rejections -/

/-- The response of lines 265-266, 281-282 and 288-289. -/
theorem reply_unauthorized :
    reply 401 "Invalid username or password"
      = .responded { status := 401, wwwAuthenticate := "Basic",
                     body := "Invalid username or password" } := rfl

/-- The three rejections of a well-shaped key coincide: when the verifier check
fails on a cache hit, or `decrypt` returns its error on a cache miss, the
response is the one given for a username that is in neither the cache nor the
vault: status 401, header `WWW-Authenticate: Basic`, body
"Invalid username or password". An entry on which `decrypt` panics is not
covered; see `wrong_secret_aborts_on_short_entry`. -/
theorem wrong_secret_same_as_unknown_user (lib : Lib) (env env2 : Env) (w w2 : World)
    (username password username2 password2 : String) (secretKey secretKey2 : SecretKey)
    (hkey : secretKeyOfPassword lib password = some secretKey)
    (hwrong :
      (∃ s e, w.sessions.get username = some s ∧
        lib.compareHashAndPassword s.hashedSecretKey secretKey.val = .error e) ∨
      (∃ auths entry e, w.sessions.get username = none ∧
        readCachedAuths w.file = (auths, none) ∧
        (auths.getD []).get username = some entry ∧
        decrypt lib entry secretKey = .err e))
    (hkey2 : secretKeyOfPassword lib password2 = some secretKey2)
    (hunknown : ∃ auths2, w2.sessions.get username2 = none ∧
      readCachedAuths w2.file = (auths2, none) ∧ (auths2.getD []).get username2 = none) :
    (serveHTTP lib env w { basicAuth := some (username, password) }).1
      = (serveHTTP lib env2 w2 { basicAuth := some (username2, password2) }).1 ∧
    (serveHTTP lib env w { basicAuth := some (username, password) }).1
      = .responded { status := 401, wwwAuthenticate := "Basic",
                     body := "Invalid username or password" } := by
  have h2 : (serveHTTP lib env2 w2 { basicAuth := some (username2, password2) }).1
      = reply 401 "Invalid username or password" := by
    obtain ⟨auths2, hs, hr, hg⟩ := hunknown
    simp only [serveHTTP, hkey2, hs, hr, hg]
  have h1 : (serveHTTP lib env w { basicAuth := some (username, password) }).1
      = reply 401 "Invalid username or password" := by
    rcases hwrong with ⟨s, e, hs, hc⟩ | ⟨auths, entry, e, hs, hr, hg, hd⟩
    · simp only [serveHTTP, hkey, hs, hc]
    · simp only [serveHTTP, hkey, hs, hr, hg, hd]
  exact ⟨h1.trans h2.symm, h1.trans reply_unauthorized⟩

/-- The coinciding rejections on a concrete run: `alice` with the wrong key
against `bob`, who is not enrolled. -/
theorem wrong_secret_same_as_unknown_user_witness :
    (serveHTTP demoLib demoEnv demoWorld { basicAuth := some ("alice", otherPassword) }).1
      = (serveHTTP demoLib demoEnv demoWorld { basicAuth := some ("bob", demoPassword) }).1 ∧
    (serveHTTP demoLib demoEnv demoWorld { basicAuth := some ("alice", otherPassword) }).1
      = .responded { status := 401, wwwAuthenticate := "Basic",
                     body := "Invalid username or password" } :=
  wrong_secret_same_as_unknown_user demoLib demoEnv demoEnv demoWorld demoWorld
    "alice" otherPassword "bob" demoPassword otherKey demoKey (by rfl)
    (Or.inr ⟨some [("alice", demoEntry)], demoEntry, "decryption error", by rfl, by rfl, by rfl,
      by rfl⟩)
    (by rfl) ⟨some [("alice", demoEntry)], by rfl, by rfl, by rfl⟩

/-- C3 at the failing input: the vault holds the empty entry for `alice`. No
key decrypts it, so every well-shaped secret is incorrect for her, yet her
request is aborted by the panic of `decrypt` while the same request for `bob`,
who is not in the vault, is answered with 401 and
"Invalid username or password": the two outcomes differ. -/
theorem wrong_secret_aborts_on_short_entry (env : Env) :
    secretKeyOfPassword demoLib otherPassword = some otherKey ∧
    (∀ p, decrypt demoLib "" otherKey ≠ .ok p) ∧
    (serveHTTP demoLib env { sessions := [], file := .object [("alice", "")] }
        { basicAuth := some ("alice", otherPassword) }).1
      = .aborted "slice bounds out of range" ∧
    (serveHTTP demoLib env { sessions := [], file := .object [("alice", "")] }
        { basicAuth := some ("bob", otherPassword) }).1
      = .responded { status := 401, wwwAuthenticate := "Basic",
                     body := "Invalid username or password" } ∧
    (serveHTTP demoLib env { sessions := [], file := .object [("alice", "")] }
        { basicAuth := some ("alice", otherPassword) }).1
      ≠ (serveHTTP demoLib env { sessions := [], file := .object [("alice", "")] }
        { basicAuth := some ("bob", otherPassword) }).1 := by
  have hdec : decrypt demoLib "" otherKey = .panic "slice bounds out of range" := by rfl
  have halice : (serveHTTP demoLib env { sessions := [], file := .object [("alice", "")] }
      { basicAuth := some ("alice", otherPassword) }).1 = .aborted "slice bounds out of range" := by
    rfl
  have hbob : (serveHTTP demoLib env { sessions := [], file := .object [("alice", "")] }
      { basicAuth := some ("bob", otherPassword) }).1
      = .responded { status := 401, wwwAuthenticate := "Basic",
                     body := "Invalid username or password" } := by
    rfl
  refine ⟨by rfl, ?_, halice, hbob, ?_⟩
  · intro p hp
    rw [hdec] at hp
    exact GoResult.noConfusion hp
  · rw [halice, hbob]
    exact fun h => Served.noConfusion h

/-- C4: a Basic-Auth password that is not valid base64, or that decodes to a
number of bytes other than 32, is answered with 401 at once: the world is
unchanged and no action is taken, so the session cache is not consulted, the
vault is not read, nothing is asked upstream and no handler is invoked. -/
theorem malformed_password_rejected_first (lib : Lib) (env : Env) (w : World)
    (username password : String)
    (hbad : (∃ e, lib.decodeString password = .error e) ∨
      (∃ b, lib.decodeString password = .ok b ∧ b.length ≠ 32)) :
    ∃ r, serveHTTP lib env w { basicAuth := some (username, password) } = (.responded r, w, []) ∧
      r.status = 401 ∧ r.wwwAuthenticate = "Basic" := by
  have hnone : secretKeyOfPassword lib password = none := by
    rcases hbad with ⟨e, he⟩ | ⟨b, hb, hlen⟩
    · simp [secretKeyOfPassword, he]
    · simp [secretKeyOfPassword, hb, hlen]
  refine ⟨{ status := 401, wwwAuthenticate := "Basic", body := "Invalid password format" }, ?_,
    rfl, rfl⟩
  simp only [serveHTTP, hnone, reply]

/-- C4 at a concrete input: a password of five bytes, sent to a gateway that
holds an entry for the user. -/
theorem malformed_password_rejected_first_witness :
    ∃ r, serveHTTP demoLib demoEnv demoWorld { basicAuth := some ("alice", "aGVsbG8=") }
        = (.responded r, demoWorld, []) ∧
      r.status = 401 ∧ r.wwwAuthenticate = "Basic" :=
  malformed_password_rejected_first demoLib demoEnv demoWorld "alice" "aGVsbG8="
    (Or.inr ⟨[104, 101, 108, 108, 111], by rfl, by decide⟩)

/-- C5 as stated fails: with no store and no session, a request whose
password is not base64 is answered with 401 and the body
"Invalid password format", which is neither of the two bodies named. -/
theorem empty_vault_third_body :
    ∃ r, (serveHTTP demoLib demoEnv { sessions := [], file := .absent }
        { basicAuth := some ("alice", "not base64!") }).1 = .responded r ∧
      r.status = 401 ∧ r.body = "Invalid password format" ∧
      r.body ≠ "Credentials are required" ∧ r.body ≠ "Invalid username or password" :=
  ⟨{ status := 401, wwwAuthenticate := "Basic", body := "Invalid password format" },
    by rfl, rfl, rfl, by decide, by decide⟩

/-- C5 amended: with an empty vault (no store, or a store holding the empty
object) and an empty session cache, every request is answered with status 401
and one of the bodies "Credentials are required", "Invalid password format",
"Invalid username or password"; the world is unchanged and no protocol
handler is invoked. -/
theorem empty_vault_always_401 (lib : Lib) (env : Env) (f : FileState) (req : Request)
    (hempty : f = .absent ∨ f = .object []) :
    ∃ r fx, serveHTTP lib env { sessions := [], file := f } req
        = (.responded r, { sessions := [], file := f }, fx) ∧
      r.status = 401 ∧
      (r.body = "Credentials are required" ∨ r.body = "Invalid password format" ∨
        r.body = "Invalid username or password") ∧
      (∀ a, Effect.newHandler a ∉ fx) := by
  have hread : ∃ auths, readCachedAuths f = (auths, none) ∧ auths.getD [] = [] := by
    rcases hempty with h | h
    · exact ⟨none, by rw [h]; rfl, rfl⟩
    · exact ⟨some [], by rw [h]; rfl, rfl⟩
  obtain ⟨auths, hr, hg⟩ := hread
  obtain ⟨ba⟩ := req
  cases ba with
  | none =>
    exact ⟨_, [], rfl, rfl, Or.inl rfl, by simp⟩
  | some up =>
    obtain ⟨username, password⟩ := up
    cases hk : secretKeyOfPassword lib password with
    | none =>
      refine ⟨{ status := 401, wwwAuthenticate := "Basic", body := "Invalid password format" },
        [], ?_, rfl, Or.inr (Or.inl rfl), by simp⟩
      simp only [serveHTTP, hk, reply]
    | some secretKey =>
      refine ⟨{ status := 401, wwwAuthenticate := "Basic",
                body := "Invalid username or password" },
        [.sessionLookup username, .vaultRead], ?_, rfl, Or.inr (Or.inr rfl), by simp⟩
      simp only [serveHTTP, hk, GoMap.get, hr, hg, reply]

/-- C5 amended, at a concrete input: the right bridge password after the
store has been removed. -/
theorem empty_vault_always_401_witness :
    ∃ r fx, serveHTTP demoLib demoEnv { sessions := [], file := .absent } demoRequest
        = (.responded r, { sessions := [], file := .absent }, fx) ∧
      r.status = 401 ∧
      (r.body = "Credentials are required" ∨ r.body = "Invalid password format" ∨
        r.body = "Invalid username or password") ∧
      (∀ a, Effect.newHandler a ∉ fx) :=
  empty_vault_always_401 demoLib demoEnv .absent demoRequest (Or.inl rfl)

/-! ## The gateway: cold start and cache -/

/-- A cold start that ends in a dispatch has hashed the presented key and
stored the session under the username. -/
theorem establish_dispatched (lib : Lib) (env : Env) (w w1 : World) (username : String)
    (secretKey : SecretKey) (decrypted : Bytes) (h : Handler) (fx : List Effect)
    (hd : establish lib env w username secretKey decrypted = (.dispatched h, w1, fx)) :
    ∃ hashed keys, lib.generateFromPassword secretKey.val env.salt = .ok hashed ∧
      w1.sessions = w.sessions.set username
        { h := h, hashedSecretKey := hashed, privateKeys := keys } := by
  unfold establish at hd
  split at hd
  · simp [reply] at hd
  · split at hd
    · simp [reply] at hd
    · split at hd
      · simp [reply] at hd
      · split at hd
        · simp [reply] at hd
        · rename_i hashed hgen
          simp only [Prod.mk.injEq, Served.dispatched.injEq] at hd
          obtain ⟨hh, hw, _⟩ := hd
          subst hh
          subst hw
          exact ⟨hashed, _, hgen, rfl⟩

/-- The cold start leaves the session map alone or adds one session under the
username of the request. -/
theorem establish_sessions (lib : Lib) (env : Env) (w : World) (username : String)
    (secretKey : SecretKey) (decrypted : Bytes) :
    (establish lib env w username secretKey decrypted).2.1.sessions = w.sessions ∨
    ∃ s, (establish lib env w username secretKey decrypted).2.1.sessions
      = w.sessions.set username s := by
  unfold establish
  split
  · exact Or.inl rfl
  · split
    · exact Or.inl rfl
    · split
      · exact Or.inl rfl
      · split
        · exact Or.inl rfl
        · exact Or.inr ⟨_, rfl⟩

/-- One request never changes or removes a session that is already cached. -/
theorem serveHTTP_keeps_session (lib : Lib) (env : Env) (w : World) (req : Request)
    (u : String) (s : session) (hs : w.sessions.get u = some s) :
    (serveHTTP lib env w req).2.1.sessions.get u = some s := by
  obtain ⟨ba⟩ := req
  cases ba with
  | none => exact hs
  | some up =>
    obtain ⟨username, password⟩ := up
    cases hk : secretKeyOfPassword lib password with
    | none =>
      simp only [serveHTTP, hk]
      exact hs
    | some secretKey =>
      cases hg : w.sessions.get username with
      | some s1 =>
        simp only [serveHTTP, hk, hg]
        split <;> exact hs
      | none =>
        have hne : u ≠ username := by
          intro h
          rw [h, hg] at hs
          exact Option.noConfusion hs
        simp only [serveHTTP, hk, hg]
        split
        · exact hs
        · split
          · exact hs
          · split
            · exact hs
            · exact hs
            · rename_i decrypted _
              show (establish lib env w username secretKey decrypted).2.1.sessions.get u = some s
              rcases establish_sessions lib env w username secretKey decrypted with h | ⟨s1, h⟩
              · rw [h]; exact hs
              · rw [h, GoMap.get_set_other _ _ _ _ hne]; exact hs

/-- A cached session survives any sequence of requests. -/
theorem serveAll_keeps_session (lib : Lib) (steps : List (Env × Request)) (w : World)
    (u : String) (s : session) (hs : w.sessions.get u = some s) :
    (serveAll lib w steps).sessions.get u = some s := by
  induction steps generalizing w with
  | nil => exact hs
  | cons step rest ih =>
    exact ih _ (serveHTTP_keeps_session lib step.1 w step.2 u s hs)

/-- C6: after a cold start for `U` with key `K` has ended in a dispatch, every
later request with the same `U` and `K`, after any sequence of requests, is
resolved from the cache: the only actions are the cache lookup and the
verifier check (no vault read or write, no upstream call), the world with its
session cache is unchanged, and the request is dispatched to the handler the
cold start stored; bcrypt is assumed to accept the key a hash was generated
from. -/
theorem cache_hit_after_cold_start (lib : Lib) (env0 env : Env) (w0 w1 : World)
    (U password password2 : String) (K : SecretKey) (h : Handler) (fx0 : List Effect)
    (steps : List (Env × Request))
    (hB : ∀ salt hashed, lib.generateFromPassword K.val salt = .ok hashed →
      lib.compareHashAndPassword hashed K.val = .ok ())
    (hkey : secretKeyOfPassword lib password = some K)
    (hmiss : w0.sessions.get U = none)
    (hcold : serveHTTP lib env0 w0 { basicAuth := some (U, password) } = (.dispatched h, w1, fx0))
    (hkey2 : secretKeyOfPassword lib password2 = some K) :
    serveHTTP lib env (serveAll lib w1 steps) { basicAuth := some (U, password2) }
      = (.dispatched h, serveAll lib w1 steps, [.sessionLookup U, .verify U]) := by
  have hstored : ∃ hashed keys, lib.generateFromPassword K.val env0.salt = .ok hashed ∧
      w1.sessions.get U = some { h := h, hashedSecretKey := hashed, privateKeys := keys } := by
    unfold serveHTTP at hcold
    simp only [hkey, hmiss] at hcold
    split at hcold
    · simp [reply] at hcold
    · split at hcold
      · simp [reply] at hcold
      · split at hcold
        · simp at hcold
        · simp [reply] at hcold
        · rename_i decrypted _
          simp only [Prod.mk.injEq] at hcold
          obtain ⟨ho, hw, hf⟩ := hcold
          have he : establish lib env0 w0 U K decrypted
              = (.dispatched h, w1, (establish lib env0 w0 U K decrypted).2.2) := by
            rw [← ho, ← hw]
          obtain ⟨hashed, keys, hgen, hsess⟩ :=
            establish_dispatched lib env0 w0 w1 U K decrypted h _ he
          exact ⟨hashed, keys, hgen, by rw [hsess, GoMap.get_set_self]⟩
  obtain ⟨hashed, keys, hgen, hget⟩ := hstored
  have hlater := serveAll_keeps_session lib steps w1 U _ hget
  have hcmp := hB env0.salt hashed hgen
  simp only [serveHTTP, hkey2, hlater, hcmp]

/-- The bcrypt stand-in accepts the password a hash was generated from. -/
theorem demoCompare_accepts (password salt hashed : Bytes)
    (hgen : demoGenerate password salt = .ok hashed) :
    demoCompare hashed password = .ok () := by
  unfold demoGenerate at hgen
  split at hgen
  · rename_i hlen
    injection hgen with hgen
    subst hgen
    have hhead : (salt ++ password.map (fun b => b + salt.headD 0)).headD 0 = salt.headD 0 := by
      cases salt with
      | nil => simp at hlen
      | cons a rest => rfl
    have hdrop : (salt ++ password.map (fun b => b + salt.headD 0)).drop 16
        = password.map (fun b => b + salt.headD 0) := by
      simp [List.drop_append_eq_append_drop, hlen]
    unfold demoCompare
    rw [hhead, hdrop]
    simp
  · exact absurd hgen (by simp)

/-- C6 at a concrete input: between the cold start of `alice` and her repeated
request the gateway serves another user and a request without credentials. -/
theorem cache_hit_after_cold_start_witness :
    serveHTTP demoLib demoEnv
        (serveAll demoLib (serveHTTP demoLib demoEnv demoWorld demoRequest).2.1
          [(demoEnv, { basicAuth := some ("bob", demoPassword) }),
           (demoEnv, { basicAuth := none })])
        demoRequest
      = (.dispatched { addr := 1, privateKeys := ["alice-key"] },
         serveAll demoLib (serveHTTP demoLib demoEnv demoWorld demoRequest).2.1
          [(demoEnv, { basicAuth := some ("bob", demoPassword) }),
           (demoEnv, { basicAuth := none })],
         [.sessionLookup "alice", .verify "alice"]) :=
  cache_hit_after_cold_start demoLib demoEnv demoEnv demoWorld
    (serveHTTP demoLib demoEnv demoWorld demoRequest).2.1 "alice" demoPassword demoPassword
    demoKey { addr := 1, privateKeys := ["alice-key"] }
    (serveHTTP demoLib demoEnv demoWorld demoRequest).2.2
    [(demoEnv, { basicAuth := some ("bob", demoPassword) }), (demoEnv, { basicAuth := none })]
    (fun salt hashed hgen => demoCompare_accepts demoKey.val salt hashed hgen)
    (by rfl) (by rfl) (by rfl) (by rfl)

/-! ## The gateway: failures after decryption -/

/-- The actions of `authenticate` are upstream calls. -/
theorem authenticate_effects (env : Env) (ca : cachedAuth) (x : Effect)
    (hx : x ∈ (authenticate env ca).2.2) : x = .upstreamRefresh ∨ x = .upstreamUnlock := by
  unfold authenticate at hx
  split at hx <;> simp at hx <;> tauto

/-- The actions of `encryptAndSaveAuth` are store accesses. -/
theorem encryptAndSaveAuth_effects (lib : Lib) (env : Env) (f : FileState) (auth : cachedAuth)
    (username : String) (secretKey : SecretKey) (x : Effect)
    (hx : x ∈ (encryptAndSaveAuth lib env f auth username secretKey).2.2) :
    x = .vaultRead ∨ x = .vaultWrite := by
  unfold encryptAndSaveAuth at hx
  split at hx
  · simp at hx
  · split at hx
    · simp at hx
    · split at hx
      · simp at hx; exact Or.inl hx
      · simp at hx; exact hx

/-- The tail of the cold start either dispatches, every step having
succeeded, or answers 500 with an empty body, leaves the session map alone
and creates no handler. -/
theorem establish_cases (lib : Lib) (env : Env) (w : World) (username : String)
    (secretKey : SecretKey) (decrypted : Bytes) :
    (∃ ca auth keys hashed h w1 fx,
      lib.jsonUnmarshal decrypted = .ok ca ∧ env.authRefresh ca.Auth = .ok auth ∧
      env.unlock auth ca.MailboxPassword = .ok keys ∧
      (encryptAndSaveAuth lib env w.file { ca with Auth := auth } username secretKey).1 = none ∧
      lib.generateFromPassword secretKey.val env.salt = .ok hashed ∧
      establish lib env w username secretKey decrypted = (.dispatched h, w1, fx)) ∨
    (∃ w1 fx, establish lib env w username secretKey decrypted
        = (.responded { status := 500, wwwAuthenticate := "Basic", body := "" }, w1, fx) ∧
      w1.sessions = w.sessions ∧
      (∀ u, Effect.sessionInsert u ∉ fx) ∧ (∀ a, Effect.newHandler a ∉ fx)) := by
  cases hu : lib.jsonUnmarshal decrypted with
  | error e =>
    right
    exact ⟨_, _, by simp only [establish, hu, reply]; rfl, rfl, by simp, by simp⟩
  | ok ca =>
    cases hr : env.authRefresh ca.Auth with
    | error e =>
      right
      exact ⟨_, _, by simp only [establish, hu, authenticate, hr, reply]; rfl, rfl, by simp,
        by simp⟩
    | ok auth =>
      cases hl : env.unlock auth ca.MailboxPassword with
      | error e =>
        right
        exact ⟨_, _, by simp only [establish, hu, authenticate, hr, hl, reply]; rfl, rfl,
          by simp, by simp⟩
      | ok keys =>
        have hfs := encryptAndSaveAuth_effects lib env w.file { ca with Auth := auth } username
          secretKey
        rcases hs : encryptAndSaveAuth lib env w.file { ca with Auth := auth } username secretKey
          with ⟨serr, f1, fs⟩
        rw [hs] at hfs
        have hins : ∀ u, Effect.sessionInsert u ∉ fs := fun u hm => by
          rcases hfs _ hm with h | h <;> exact Effect.noConfusion h
        have hnew : ∀ a, Effect.newHandler a ∉ fs := fun a hm => by
          rcases hfs _ hm with h | h <;> exact Effect.noConfusion h
        cases serr with
        | some e =>
          right
          refine ⟨{ w with file := f1 }, _,
            by simp only [establish, hu, authenticate, hr, hl, hs, reply]; rfl, rfl, ?_, ?_⟩
          · intro u; simpa using hins u
          · intro a; simpa using hnew a
        | none =>
          cases hg : lib.generateFromPassword secretKey.val env.salt with
          | error e =>
            right
            refine ⟨{ w with file := f1 }, _,
              by simp only [establish, hu, authenticate, hr, hl, hs, hg, reply]; rfl, rfl, ?_, ?_⟩
            · intro u; simpa using hins u
            · intro a; simpa using hnew a
          | ok hashed =>
            left
            exact ⟨ca, auth, keys, hashed, _, _, _, rfl, hr, hl, by rw [hs], rfl,
              by simp only [establish, hu, authenticate, hr, hl, hs, hg]; rfl⟩

/-- C7 as stated fails: when the token refresh fails after a successful
decryption, the response has status 500 and an empty body; no message, generic
or other, is written to the client. -/
theorem server_error_has_no_message :
    ∃ r w1 fx, serveHTTP demoLib refreshFailsEnv demoWorld demoRequest = (.responded r, w1, fx) ∧
      decrypt demoLib demoEntry demoKey = .ok demoCleartext ∧
      r.status = 500 ∧ r.body = "" ∧ r.body.length = 0 :=
  ⟨{ status := 500, wwwAuthenticate := "Basic", body := "" }, demoWorld,
    [.sessionLookup "alice", .vaultRead, .upstreamRefresh,
      .log "Cannot authenticate %q: %v" ["alice", "invalid refresh token"]],
    by rfl, by rfl, rfl, rfl, by decide⟩

/-- C7 amended: in a cold start whose stored entry decrypts, a failure of any
later step (unmarshalling the record, the upstream refresh, the unlock,
`encryptAndSaveAuth`, hashing the key) yields status 500 with header
`WWW-Authenticate: Basic` and an empty body, the same for every failure; it is
never a 401 nor a dispatch, no handler is created and the session map is
unchanged. -/
theorem failure_after_decrypt_is_500 (lib : Lib) (env : Env) (w : World)
    (username password entry : String) (secretKey : SecretKey)
    (auths : Option (GoMap String)) (decrypted : Bytes)
    (hkey : secretKeyOfPassword lib password = some secretKey)
    (hmiss : w.sessions.get username = none)
    (hread : readCachedAuths w.file = (auths, none))
    (hentry : (auths.getD []).get username = some entry)
    (hdec : decrypt lib entry secretKey = .ok decrypted)
    (hfail :
      (∃ e, lib.jsonUnmarshal decrypted = .error e) ∨
      (∃ ca, lib.jsonUnmarshal decrypted = .ok ca ∧
        ((∃ e, env.authRefresh ca.Auth = .error e) ∨
         (∃ auth, env.authRefresh ca.Auth = .ok auth ∧
           ((∃ e, env.unlock auth ca.MailboxPassword = .error e) ∨
            (∃ e, (encryptAndSaveAuth lib env w.file { ca with Auth := auth } username
                secretKey).1 = some e) ∨
            (∃ e, lib.generateFromPassword secretKey.val env.salt = .error e)))))) :
    ∃ w1 fx, serveHTTP lib env w { basicAuth := some (username, password) }
        = (.responded { status := 500, wwwAuthenticate := "Basic", body := "" }, w1, fx) ∧
      w1.sessions = w.sessions ∧
      (∀ u, Effect.sessionInsert u ∉ fx) ∧ (∀ a, Effect.newHandler a ∉ fx) := by
  have hserve : serveHTTP lib env w { basicAuth := some (username, password) }
      = ((establish lib env w username secretKey decrypted).1,
         (establish lib env w username secretKey decrypted).2.1,
         [.sessionLookup username, .vaultRead]
           ++ (establish lib env w username secretKey decrypted).2.2) := by
    simp only [serveHTTP, hkey, hmiss, hread, hentry, hdec]
  rcases establish_cases lib env w username secretKey decrypted with
    ⟨ca, auth, keys, hashed, h, w1, fx, hu, hr, hl, hs, hg, _⟩ | ⟨w1, fx, he, hsess, hins, hnew⟩
  · exfalso
    rcases hfail with ⟨e, h1⟩ | ⟨ca1, h1, h2⟩
    · rw [hu] at h1; exact Except.noConfusion h1
    · rw [hu] at h1
      injection h1 with h1
      subst h1
      rcases h2 with ⟨e, h2⟩ | ⟨auth1, h2, h3⟩
      · rw [hr] at h2; exact Except.noConfusion h2
      · rw [hr] at h2
        injection h2 with h2
        subst h2
        rcases h3 with ⟨e, h3⟩ | ⟨e, h3⟩ | ⟨e, h3⟩
        · rw [hl] at h3; exact Except.noConfusion h3
        · rw [hs] at h3; exact Option.noConfusion h3
        · rw [hg] at h3; exact Except.noConfusion h3
  · refine ⟨w1, [.sessionLookup username, .vaultRead] ++ fx, ?_, hsess, ?_, ?_⟩
    · rw [hserve, he]
    · intro u hm
      simp only [List.mem_append, List.mem_cons, List.mem_singleton, List.not_mem_nil,
        or_false] at hm
      rcases hm with (h | h) | h
      · exact Effect.noConfusion h
      · exact Effect.noConfusion h
      · exact hins u h
    · intro a hm
      simp only [List.mem_append, List.mem_cons, List.mem_singleton, List.not_mem_nil,
        or_false] at hm
      rcases hm with (h | h) | h
      · exact Effect.noConfusion h
      · exact Effect.noConfusion h
      · exact hnew a h

/-- C7 amended, at a concrete input: the unlock fails after the refresh. -/
theorem failure_after_decrypt_is_500_witness :
    ∃ w1 fx, serveHTTP demoLib unlockFailsEnv demoWorld demoRequest
        = (.responded { status := 500, wwwAuthenticate := "Basic", body := "" }, w1, fx) ∧
      w1.sessions = demoWorld.sessions ∧
      (∀ u, Effect.sessionInsert u ∉ fx) ∧ (∀ a, Effect.newHandler a ∉ fx) :=
  failure_after_decrypt_is_500 demoLib unlockFailsEnv demoWorld "alice" demoPassword demoEntry
    demoKey (some [("alice", demoEntry)]) demoCleartext (by rfl) (by rfl) (by rfl) (by rfl)
    (by rfl)
    (Or.inr ⟨demoAuth, by rfl,
      Or.inr ⟨{ demoAuth.Auth with AccessToken := "at1", RefreshToken := "rt1" }, by rfl,
        Or.inl ⟨"wrong mailbox password", by rfl⟩⟩⟩)

/-- C8 at the failing input: the refresh succeeds and rotates the token, the
unlock fails, and the request ends with 500 without any write to the vault:
the store still holds the entry with the old refresh token. -/
theorem rotated_record_lost_when_unlock_fails :
    unlockFailsEnv.authRefresh demoAuth.Auth
      = .ok { AccessToken := "at1", RefreshToken := "rt1", EventID := "e0", PasswordMode := 1 } ∧
    serveHTTP demoLib unlockFailsEnv demoWorld demoRequest
      = (reply 500 "", demoWorld,
         [.sessionLookup "alice", .vaultRead, .upstreamRefresh, .upstreamUnlock,
          .log "Cannot authenticate %q: %v" ["alice", "wrong mailbox password"]]) ∧
    demoWorld.file = .object [("alice", demoEntry)] ∧
    decrypt demoLib demoEntry demoKey = .ok demoCleartext ∧
    demoUnmarshal demoCleartext = .ok demoAuth ∧ demoAuth.Auth.RefreshToken = "rt0" :=
  ⟨by rfl, by rfl, rfl, by rfl, by rfl, rfl⟩

/-! ## The event relay -/

/-- Running one more tick is one more iteration of the loop body. -/
theorem receiveEvents_snoc (last : String) (ticks : List (String → Except String Event))
    (getEvent : String → Except String Event) :
    receiveEvents last (ticks ++ [getEvent]) = relayTick (receiveEvents last ticks) getEvent := by
  simp [receiveEvents, List.foldl_append]

/-- One iteration only ever appends to what has been sent. -/
theorem relayTick_sent_extends (s : RelayState) (getEvent : String → Except String Event) :
    s.sent <+: (relayTick s getEvent).sent := by
  unfold relayTick
  split
  · exact List.prefix_refl _
  · split
    · exact List.prefix_refl _
    · exact List.prefix_append _ _

/-- Further iterations only ever append to what has been sent. -/
theorem foldl_relayTick_sent_extends (more : List (String → Except String Event))
    (s : RelayState) : s.sent <+: (more.foldl relayTick s).sent := by
  induction more generalizing s with
  | nil => exact List.prefix_refl _
  | cons g rest ih =>
    exact (relayTick_sent_extends s g).trans (ih (relayTick s g))

/-- C9 as stated fails: when the cursor already is `e0` and two consecutive
polls both return the event `e0`, no event at all is forwarded for them, not
exactly one. -/
theorem same_cursor_twice_forwards_none :
    pollE0 "e0" = .ok { ID := "e0", payload := "nothing new" } ∧
    receiveEvents "e0" [pollE0, pollE0] = { last := "e0", sent := [] } ∧
    (receiveEvents "e0" [pollE0, pollE0]).sent.length ≠ 1 :=
  ⟨rfl, by rfl, by decide⟩

/-- C9 amended: for every initial cursor, every finite sequence of polls and
one more poll, a failed poll forwards nothing and keeps the cursor, a fetched
event whose ID equals the cursor is discarded, a fetched event whose ID
differs is appended to the forwarded events and its ID becomes the cursor, and
the loop goes on with the next poll in each case; what has been forwarded is
never reordered or retracted by later polls; and for two consecutive polls
that return the same ID at most one event is forwarded: the first of the two
when that ID differs from the cursor before them, none when it equals it. -/
theorem receiveEvents_forwarding (last : String) (ticks : List (String → Except String Event))
    (getEvent next : String → Except String Event) :
    (∀ e, getEvent (receiveEvents last ticks).last = .error e →
      receiveEvents last (ticks ++ [getEvent]) = receiveEvents last ticks) ∧
    (∀ event, getEvent (receiveEvents last ticks).last = .ok event →
      event.ID = (receiveEvents last ticks).last →
      receiveEvents last (ticks ++ [getEvent]) = receiveEvents last ticks) ∧
    (∀ event, getEvent (receiveEvents last ticks).last = .ok event →
      event.ID ≠ (receiveEvents last ticks).last →
      receiveEvents last (ticks ++ [getEvent])
        = { last := event.ID, sent := (receiveEvents last ticks).sent ++ [event] }) ∧
    (∀ more, (receiveEvents last ticks).sent <+: (receiveEvents last (ticks ++ more)).sent) ∧
    (∀ event1 event2, getEvent (receiveEvents last ticks).last = .ok event1 →
      next (receiveEvents last (ticks ++ [getEvent])).last = .ok event2 →
      event1.ID = event2.ID →
      (receiveEvents last (ticks ++ [getEvent, next])).sent
        = (receiveEvents last ticks).sent
          ++ (if event1.ID = (receiveEvents last ticks).last then [] else [event1])) := by
  refine ⟨?_, ?_, ?_, ?_, ?_⟩
  · intro e he
    rw [receiveEvents_snoc]
    simp only [relayTick, he]
  · intro event he hid
    rw [receiveEvents_snoc]
    simp only [relayTick, he, hid, if_true]
  · intro event he hid
    rw [receiveEvents_snoc]
    simp only [relayTick, he, hid, if_false]
  · intro more
    unfold receiveEvents
    rw [List.foldl_append]
    exact foldl_relayTick_sent_extends more _
  · intro event1 event2 h1 h2 hid
    have hsplit : ticks ++ [getEvent, next] = (ticks ++ [getEvent]) ++ [next] := by simp
    rw [hsplit, receiveEvents_snoc]
    rw [receiveEvents_snoc] at h2 ⊢
    by_cases hc : event1.ID = (receiveEvents last ticks).last
    · have hfirst : relayTick (receiveEvents last ticks) getEvent = receiveEvents last ticks := by
        simp only [relayTick, h1, hc, if_true]
      rw [hfirst] at h2 ⊢
      have hc2 : event2.ID = (receiveEvents last ticks).last := hid ▸ hc
      simp only [relayTick, h2, hc2, hc, if_true, List.append_nil]
    · have hfirst : relayTick (receiveEvents last ticks) getEvent
          = { last := event1.ID, sent := (receiveEvents last ticks).sent ++ [event1] } := by
        simp only [relayTick, h1, hc, if_false]
      rw [hfirst] at h2 ⊢
      have h2a : next event1.ID = .ok event2 := h2
      have hid2 : event2.ID = event1.ID := hid.symm
      simp only [relayTick, h2a, hid2, hc, if_true, if_false]

/-! ## encryptAndSaveAuth -/

/-- C10: when `encryptAndSaveAuth` succeeds for a record whose serialization
is `cleartext`, the store it read was absent or held a mapping, the store
afterwards holds a mapping in which every username other than `username` has
the entry it had before (none when the store was absent), and the entry of
`username`, decrypted with the same key, is `cleartext`; `secretbox.Open` is
assumed to invert `secretbox.Seal` on this message and base64 decoding to
invert encoding on the sealed bytes. -/
theorem encryptAndSaveAuth_frame (lib : Lib) (env : Env) (f f1 : FileState) (auth : cachedAuth)
    (username : String) (secretKey : SecretKey) (cleartext : Bytes) (nonce : Nonce)
    (fx : List Effect)
    (hM : lib.jsonMarshal auth = .ok cleartext)
    (hR : env.rand = .ok nonce)
    (hOpen : lib.secretboxOpen (lib.secretboxSeal cleartext nonce secretKey) nonce secretKey
      = some cleartext)
    (hB64 : lib.decodeString
        (lib.encodeToString (nonce.val ++ lib.secretboxSeal cleartext nonce secretKey))
        = .ok (nonce.val ++ lib.secretboxSeal cleartext nonce secretKey))
    (hok : encryptAndSaveAuth lib env f auth username secretKey = (none, f1, fx)) :
    ∃ (previous saved : GoMap String) (entry : String),
      (f = .absent ∧ previous = [] ∨ f = .object previous) ∧
      f1 = .object saved ∧
      (∀ u, u ≠ username → GoMap.get saved u = GoMap.get previous u) ∧
      GoMap.get saved username = some entry ∧
      decrypt lib entry secretKey = .ok cleartext := by
  have henc : encrypt lib (.ok nonce) cleartext secretKey
      = .ok (lib.encodeToString (nonce.val ++ lib.secretboxSeal cleartext nonce secretKey)) := by
    simp only [encrypt]
  have hdecr : decrypt lib
      (lib.encodeToString (nonce.val ++ lib.secretboxSeal cleartext nonce secretKey)) secretKey
      = .ok cleartext := by
    rw [decrypt_encoded lib nonce (lib.secretboxSeal cleartext nonce secretKey) secretKey hB64]
    simp only [hOpen]
  unfold encryptAndSaveAuth at hok
  rw [hM] at hok
  simp only [hR, henc] at hok
  cases f with
  | absent =>
    cases hsave : env.save with
    | written =>
      simp only [readCachedAuths, saveAuths, hsave, Prod.mk.injEq, true_and] at hok
      exact ⟨[], _, _, Or.inl ⟨rfl, rfl⟩, hok.1.symm,
        fun u hu => GoMap.get_set_other _ _ _ _ hu, GoMap.get_set_self _ _ _, hdecr⟩
    | createFails e => simp [readCachedAuths, saveAuths, hsave] at hok
    | writeFails e => simp [readCachedAuths, saveAuths, hsave] at hok
  | unopenable e => simp [readCachedAuths] at hok
  | object previous =>
    cases hsave : env.save with
    | written =>
      simp only [readCachedAuths, saveAuths, hsave, Prod.mk.injEq, true_and] at hok
      exact ⟨previous, _, _, Or.inr rfl, hok.1.symm,
        fun u hu => GoMap.get_set_other _ _ _ _ hu, GoMap.get_set_self _ _ _, hdecr⟩
    | createFails e => simp [readCachedAuths, saveAuths, hsave] at hok
    | writeFails e => simp [readCachedAuths, saveAuths, hsave] at hok
  | garbled decoded e => simp [readCachedAuths] at hok

/-- C10 at a concrete input: enrolling `bob` into the store that holds
`alice`. -/
theorem encryptAndSaveAuth_frame_witness :
    ∃ (previous saved : GoMap String) (entry : String),
      (FileState.object [("alice", demoEntry)] = .absent ∧ previous = [] ∨
        FileState.object [("alice", demoEntry)] = .object previous) ∧
      (encryptAndSaveAuth demoLib demoEnv (.object [("alice", demoEntry)]) demoAuth "bob"
        otherKey).2.1 = .object saved ∧
      (∀ u, u ≠ "bob" → GoMap.get saved u = GoMap.get previous u) ∧
      GoMap.get saved "bob" = some entry ∧
      decrypt demoLib entry otherKey = .ok demoCleartext :=
  encryptAndSaveAuth_frame demoLib demoEnv (.object [("alice", demoEntry)])
    (encryptAndSaveAuth demoLib demoEnv (.object [("alice", demoEntry)]) demoAuth "bob"
      otherKey).2.1
    demoAuth "bob" otherKey demoCleartext demoNonce
    (encryptAndSaveAuth demoLib demoEnv (.object [("alice", demoEntry)]) demoAuth "bob"
      otherKey).2.2
    (by rfl) (by rfl) (by rfl) (by rfl) (by rfl)

end Hydroxide
